import Mathlib

/-!
A shallow embedding of the process-supervision core of the FrpManager
Electron application (`src/main/FrpManager.ts`).

The `FrpManager` class keeps two pieces of mutable state that the claims
are about: `processes : Map<string, ChildProcess>` (the table of live
child processes, keyed by configuration id) and `configs : FrpConfig[]`
(the in-memory registry).  Persistence is a single JSON file holding the
serialized `configs` array.  External collaborators (the TOML library,
the filesystem, the spawned child process) are modelled as explicit
parameters: a `parse` function standing for `TOML.parse`, an
`Except String Unit` standing for the outcome of an `fs.writeFile` call,
and explicit handler functions (`closeHandler`, `errorHandler`) standing
for the asynchronous callbacks that `startFrp` registers on the child.

Every observable effect (spawn, kill, `frp-status-changed` and
`frp-error` window messages) is recorded in an `FrpAction` trace in the
order the source performs it.
-/

/-- Result of `TOML.parse`.  The core stores the parsed document in
`parsedConfig` but never inspects it, so the external TOML value is
modelled abstractly as a flat key/value table. -/
structure TomlTable where
  entries : List (String × String)
deriving DecidableEq

/-- The `FrpConfig` interface of the source: `id`, `name`, the TOML text
`config`, the mutable `isRunning` mark, the `autoStart` flag and the
optional derived `parsedConfig`. -/
structure FrpConfig where
  id : String
  name : String
  config : String
  isRunning : Bool
  autoStart : Bool
  parsedConfig : Option TomlTable
deriving DecidableEq

/-- Observable actions, in program order: process spawn/kill (the
`ProcessRunner` side) and the two window messages `frp-status-changed`
and `frp-error` (the `EventSink` side).  An `frp-error` message carries
the pair `\x7bconfigId, error\x7d`; `errorEvent`'s first component is the
value the source passes as `configId`. -/
inductive FrpAction where
  | spawn (handle : Nat)
  | kill (handle : Nat)
  | statusChanged (config : FrpConfig)
  | errorEvent (configId : String) (msg : String)
deriving DecidableEq

/-- The mutable state of a `FrpManager` instance: the live-process map
(handles are identified by the `Nat` the spawner hands out), the
in-memory registry, and a counter supplying fresh process handles. -/
structure ManagerState where
  processes : List (String × Nat)
  configs : List FrpConfig
  nextHandle : Nat
deriving DecidableEq

/-- `Map.get`: the value stored under a key, if any. -/
def mapGet (m : List (String × Nat)) (k : String) : Option Nat :=
  (m.find? (fun p => p.1 == k)).map (fun p => p.2)

/-- `Map.set`: replace the binding of an existing key in place, else
append a new binding (JS `Map` keeps insertion order). -/
def mapSet (m : List (String × Nat)) (k : String) (v : Nat) :
    List (String × Nat) :=
  match m with
  | [] => [(k, v)]
  | p :: rest => if p.1 == k then (k, v) :: rest else p :: mapSet rest k v

/-- `Map.delete`: remove the binding of a key. -/
def mapDelete (m : List (String × Nat)) (k : String) : List (String × Nat) :=
  m.filter (fun p => p.1 != k)

/-- The registry update performed by `saveConfig`:
`findIndex(c => c.id === config.id)`, then in-place assignment at that
index when found, else `push`. -/
def upsertById (cs : List FrpConfig) (c' : FrpConfig) : List FrpConfig :=
  match cs.findIdx? (fun c => c.id == c'.id) with
  | some i => cs.set i c'
  | none => cs ++ [c']

/-- In-place mutation of the object returned by `getConfig` (the first
element with the given id), as seen through the registry array that
holds a reference to the same object. -/
def replaceFirstById (cs : List FrpConfig) (c' : FrpConfig) : List FrpConfig :=
  match cs with
  | [] => []
  | c :: rest => if c.id == c'.id then c' :: rest else c :: replaceFirstById rest c'

/-- Number of registry records carrying a given id. -/
def countById (cs : List FrpConfig) (id : String) : Nat :=
  (cs.filter (fun c => c.id == id)).length

/-- The registry invariant: ids are pairwise distinct. -/
def uniqueIds (cs : List FrpConfig) : Prop :=
  (cs.map (fun c => c.id)).Nodup

instance (cs : List FrpConfig) : Decidable (uniqueIds cs) := by
  unfold uniqueIds; infer_instance

/-- `detectArchitecture`: `os.arch() === 'arm64' ? 'arm64' : 'x64'`. -/
def detectArchitecture (arch : String) : String :=
  if arch == "arm64" then "arm64" else "x64"

/-- `getArchitecture`: returns the `architecture` field computed at
construction time; reads nothing else and writes nothing. -/
def getArchitecture (st : ManagerState) (architecture : String) :
    String × ManagerState :=
  (architecture, st)

/-- `initConfigs`: `JSON.parse` of the persisted file on success, the
empty registry when the read or parse fails (`none`). -/
def initConfigs (loadResult : Option (List FrpConfig)) : List FrpConfig :=
  match loadResult with
  | some cs => cs
  | none => []

/-- `getConfig`: `configs.find(c => c.id === id)`. -/
def getConfig (cs : List FrpConfig) (id : String) : Option FrpConfig :=
  cs.find? (fun c => c.id == id)

/-- `getConfigs`: returns the in-memory registry array. -/
def getConfigs (st : ManagerState) : List FrpConfig :=
  st.configs

/-- `saveConfig`.  Inside one `try`: parse the TOML body (a parse error
escapes to the `catch`), store the parsed value on the record, upsert
the registry by id, then write the full serialized registry to disk (a
write error also escapes to the same `catch`).  The `catch` rethrows
any of these as a single TOML-invalid error.  Returns
(result, new manager state, persisted file content). -/
def saveConfig (parse : String → Except String TomlTable)
    (writeRes : Except String Unit) (st : ManagerState)
    (persisted : List FrpConfig) (config : FrpConfig) :
    Except String Unit × ManagerState × List FrpConfig :=
  match parse config.config with
  | .error msg => (.error ("TOML 配置格式无效: " ++ msg), st, persisted)
  | .ok parsed =>
    let config' := { config with parsedConfig := some parsed }
    let newConfigs := upsertById st.configs config'
    match writeRes with
    | .ok _ => (.ok (), { st with configs := newConfigs }, newConfigs)
    | .error e =>
      (.error ("TOML 配置格式无效: " ++ e), { st with configs := newConfigs }, persisted)

/-- `stopFrp`: if a process is tracked under `config.id`, kill it,
delete the table entry, set `config.isRunning = false` and send one
status-changed message; otherwise do nothing.  Returns the new process
table, the mutated config object and the action trace. -/
def stopFrp (procs : List (String × Nat)) (config : FrpConfig) :
    List (String × Nat) × FrpConfig × List FrpAction :=
  match mapGet procs config.id with
  | some h =>
    (mapDelete procs config.id, { config with isRunning := false },
     [FrpAction.kill h, FrpAction.statusChanged { config with isRunning := false }])
  | none => (procs, config, [])

/-- `deleteConfig`: look the id up; when absent, return silently.  When
present, `stopFrp` the found record (the registry element itself, so
its `isRunning` mutation is visible in the array), filter the id out of
the registry and persist the reduced set; a write error propagates raw
to the caller. -/
def deleteConfig (writeRes : Except String Unit) (st : ManagerState)
    (persisted : List FrpConfig) (id : String) :
    Except String Unit × ManagerState × List FrpConfig × List FrpAction :=
  match getConfig st.configs id with
  | none => (.ok (), st, persisted, [])
  | some config =>
    let stopped := stopFrp st.processes config
    let configsMid := replaceFirstById st.configs stopped.2.1
    let newConfigs := configsMid.filter (fun c => c.id != id)
    let st' := { st with processes := stopped.1, configs := newConfigs }
    match writeRes with
    | .ok _ => (.ok (), st', newConfigs, stopped.2.2)
    | .error e => (.error e, st', persisted, stopped.2.2)

/-- `startFrp` up to its return point.  `writeRes` is the outcome of
writing the transient per-config TOML file: a failure there rejects the
returned promise and nothing else happens.  Otherwise `spawn` always
hands back a handle synchronously (a launch failure is delivered later
through the `error` callback, see `errorHandler`), the handle is stored
under `config.id` — overwriting any existing entry, there is no
already-running guard — `config.isRunning` is set and one
status-changed message is sent.  Returns
(result, new state, mutated config, action trace). -/
def startFrp (writeRes : Except String Unit) (st : ManagerState)
    (config : FrpConfig) :
    Except String Unit × ManagerState × FrpConfig × List FrpAction :=
  match writeRes with
  | .error e => (.error e, st, config, [])
  | .ok _ =>
    let handle := st.nextHandle
    let config' := { config with isRunning := true }
    (.ok (),
     { st with processes := mapSet st.processes config.id handle,
               nextHandle := handle + 1 },
     config',
     [FrpAction.spawn handle, FrpAction.statusChanged config'])

/-- The `close` callback `startFrp` registers on the child: delete the
table entry, clear `isRunning`, send status-changed, and — when the
exit code is neither `0` nor `null` — send an `frp-error` message whose
`configId` field the source fills with `name` (the local copy of
`config.name`) and whose text carries the exit code. -/
def closeHandler (procs : List (String × Nat)) (config : FrpConfig)
    (code : Option Int) :
    List (String × Nat) × FrpConfig × List FrpAction :=
  let config' := { config with isRunning := false }
  let acts :=
    match code with
    | some c =>
      if c == 0 then [FrpAction.statusChanged config']
      else [FrpAction.statusChanged config',
            FrpAction.errorEvent config.name ("进程退出，退出码: " ++ toString c)]
    | none => [FrpAction.statusChanged config']
  (mapDelete procs config.id, config', acts)

/-- The `error` callback `startFrp` registers on the child (fires when
the spawn itself fails, e.g. missing binary): delete the table entry,
clear `isRunning`, send status-changed, then send an `frp-error`
message tagged with `config.id` and carrying the error message. -/
def errorHandler (procs : List (String × Nat)) (config : FrpConfig)
    (errMsg : String) :
    List (String × Nat) × FrpConfig × List FrpAction :=
  (mapDelete procs config.id, { config with isRunning := false },
   [FrpAction.statusChanged { config with isRunning := false },
    FrpAction.errorEvent config.id errMsg])

/-- The loop body of `startAutoStartConfigs`: for each registry element
with `autoStart` set and `isRunning` clear, `await startFrp(config)`
inside a `try`; a rejection (config-file write failure, looked up per
id in `writeRes`) is caught, reported as an `frp-error` message, and
the loop continues with the remaining configurations.  Returns the
final state, the updated registry elements and the action trace. -/
def autoStartLoop (writeRes : String → Except String Unit)
    (st : ManagerState) (pending : List FrpConfig) :
    ManagerState × List FrpConfig × List FrpAction :=
  match pending with
  | [] => (st, [], [])
  | config :: rest =>
    if config.autoStart && !config.isRunning then
      match writeRes config.id with
      | .ok _ =>
        let started := startFrp (.ok ()) st config
        let tail := autoStartLoop writeRes started.2.1 rest
        (tail.1, started.2.2.1 :: tail.2.1, started.2.2.2 ++ tail.2.2)
      | .error e =>
        let tail := autoStartLoop writeRes st rest
        (tail.1, config :: tail.2.1,
         FrpAction.errorEvent config.id ("自动启动失败: " ++ e) :: tail.2.2)
    else
      let tail := autoStartLoop writeRes st rest
      (tail.1, config :: tail.2.1, tail.2.2)

/-- `startAutoStartConfigs`: run the auto-start loop over the in-memory
registry (whose elements are the very objects `startFrp` mutates). -/
def startAutoStartConfigs (writeRes : String → Except String Unit)
    (st : ManagerState) : ManagerState × List FrpAction :=
  let r := autoStartLoop writeRes st st.configs
  ({ r.1 with configs := r.2.1 }, r.2.2)

/-- A small concrete stand-in for `TOML.parse`, used to instantiate the
theorems: it rejects the empty document and accepts anything else. -/
def demoParse (s : String) : Except String TomlTable :=
  if s == "" then .error "Empty document" else .ok ⟨[("doc", s)]⟩

/-! ### Helper lemmas about the map and registry operations -/

lemma mapGet_mapSet_self (m : List (String × Nat)) (k : String) (v : Nat) :
    mapGet (mapSet m k v) k = some v := by
  induction m with
  | nil => simp [mapSet, mapGet]
  | cons p rest ih =>
    by_cases h : p.1 == k
    · simp [mapSet, h, mapGet]
    · simp only [mapSet, h, Bool.false_eq_true, if_false]
      simpa [mapGet, List.find?_cons_of_neg, h] using ih

lemma mapGet_mapDelete_self (m : List (String × Nat)) (k : String) :
    mapGet (mapDelete m k) k = none := by
  induction m with
  | nil => rfl
  | cons p rest ih =>
    by_cases h : p.1 = k
    · have hb : (p.1 != k) = false := by simp [h]
      simpa [mapDelete, List.filter_cons, hb] using ih
    · have hb : (p.1 != k) = true := by simp [h]
      have hn : ¬((p.1 == k) = true) := by simp [h]
      simp only [mapDelete, List.filter_cons, hb, if_true]
      unfold mapGet
      have hfind : List.find? (fun q => q.1 == k)
            (p :: List.filter (fun q => q.1 != k) rest)
          = List.find? (fun q => q.1 == k) (List.filter (fun q => q.1 != k) rest) :=
        List.find?_cons_of_neg _ hn
      rw [hfind]
      exact ih

lemma upsertById_cons (c : FrpConfig) (cs : List FrpConfig) (c' : FrpConfig) :
    upsertById (c :: cs) c' =
      if c.id == c'.id then c' :: cs else c :: upsertById cs c' := by
  by_cases h : c.id == c'.id
  · simp [upsertById, h]
  · simp only [upsertById, List.findIdx?_cons, h, Bool.false_eq_true, if_false]
    rw [List.findIdx?_succ]
    cases hfi : cs.findIdx? (fun x => x.id == c'.id) with
    | none => simp
    | some i => simp

lemma getConfig_upsertById (cs : List FrpConfig) (c' : FrpConfig) :
    getConfig (upsertById cs c') c'.id = some c' := by
  induction cs with
  | nil => simp [upsertById, getConfig]
  | cons c cs ih =>
    rw [upsertById_cons]
    by_cases h : c.id == c'.id
    · simp [h, getConfig]
    · simpa [h, getConfig, List.find?_cons_of_neg] using ih

lemma ids_upsertById (cs : List FrpConfig) (c' : FrpConfig) :
    (upsertById cs c').map (fun c => c.id) =
      if cs.any (fun c => c.id == c'.id) then cs.map (fun c => c.id)
      else cs.map (fun c => c.id) ++ [c'.id] := by
  induction cs with
  | nil => simp [upsertById]
  | cons c cs ih =>
    rw [upsertById_cons]
    by_cases h : c.id == c'.id
    · have hceq : c.id = c'.id := by simpa using h
      simp [h, hceq]
    · by_cases ha : cs.any (fun c => c.id == c'.id)
      · simp [h, ha, ih]
      · simp [h, ha, ih]

lemma countById_eq_zero_of_forall (cs : List FrpConfig) (id : String)
    (h : ∀ c ∈ cs, c.id ≠ id) : countById cs id = 0 := by
  unfold countById
  rw [List.length_eq_zero, List.filter_eq_nil_iff]
  intro c hc
  simpa using h c hc

lemma uniqueIds_upsertById (cs : List FrpConfig) (c' : FrpConfig)
    (h : uniqueIds cs) : uniqueIds (upsertById cs c') := by
  unfold uniqueIds at h ⊢
  rw [ids_upsertById]
  by_cases ha : cs.any (fun c => c.id == c'.id)
  · simpa [ha] using h
  · rw [if_neg ha, List.nodup_append]
    refine ⟨h, List.nodup_singleton _, ?_⟩
    intro x hx hx'
    have hxeq : x = c'.id := by simpa using hx'
    rcases List.mem_map.mp hx with ⟨c, hc, hcid⟩
    exact ha (List.any_eq_true.mpr ⟨c, hc, by simp [hcid, hxeq]⟩)

lemma countById_upsertById (cs : List FrpConfig) (c' : FrpConfig)
    (h : uniqueIds cs) : countById (upsertById cs c') c'.id = 1 := by
  induction cs with
  | nil => simp [upsertById, countById]
  | cons c cs ih =>
    rw [uniqueIds, List.map_cons, List.nodup_cons] at h
    obtain ⟨hnotin, hnodup⟩ := h
    rw [upsertById_cons]
    by_cases hc : c.id == c'.id
    · have hceq : c.id = c'.id := by simpa using hc
      have hzero : countById cs c'.id = 0 := by
        apply countById_eq_zero_of_forall
        intro x hx hxid
        exact hnotin (List.mem_map.mpr ⟨x, hx, hxid.trans hceq.symm⟩)
      unfold countById at hzero ⊢
      rw [if_pos hc, List.filter_cons]
      simp [hzero]
    · have hne : (c.id == c'.id) = false := by simpa using hc
      rw [if_neg (by simp [hne])]
      unfold countById
      rw [List.filter_cons]
      simpa [hne] using ih hnodup

lemma length_upsertById_of_mem (cs : List FrpConfig) (c' : FrpConfig)
    (h : cs.any (fun c => c.id == c'.id) = true) :
    (upsertById cs c').length = cs.length := by
  have hids := congrArg List.length (ids_upsertById cs c')
  simpa [h] using hids

lemma getConfig_filter_ne (cs : List FrpConfig) (id : String) :
    getConfig (cs.filter (fun c => c.id != id)) id = none := by
  induction cs with
  | nil => rfl
  | cons c cs ih =>
    by_cases h : c.id = id
    · have hb : (c.id != id) = false := by simp [h]
      simpa [List.filter_cons, hb] using ih
    · have hb : (c.id != id) = true := by simp [h]
      have hn : ¬((c.id == id) = true) := by simp [h]
      rw [List.filter_cons, if_pos (by simp [hb])]
      unfold getConfig
      have hfind : List.find? (fun x => x.id == id)
            (c :: List.filter (fun x => x.id != id) cs)
          = List.find? (fun x => x.id == id) (List.filter (fun x => x.id != id) cs) :=
        List.find?_cons_of_neg _ hn
      rw [hfind]
      exact ih

lemma getConfig_replaceFirstById (cs : List FrpConfig) (c' : FrpConfig)
    (h : (getConfig cs c'.id).isSome) :
    getConfig (replaceFirstById cs c') c'.id = some c' := by
  induction cs with
  | nil => simp [getConfig] at h
  | cons c cs ih =>
    by_cases hc : c.id == c'.id
    · simp [replaceFirstById, hc, getConfig]
    · have hn : ¬((c.id == c'.id) = true) := by simp_all
      rw [replaceFirstById, if_neg hn]
      unfold getConfig at h ⊢
      have hfind : ∀ rest : List FrpConfig,
          List.find? (fun x => x.id == c'.id) (c :: rest)
            = List.find? (fun x => x.id == c'.id) rest :=
        fun rest => List.find?_cons_of_neg _ hn
      rw [hfind] at h
      rw [hfind]
      exact ih h

lemma getConfig_id_eq (cs : List FrpConfig) (id : String) (c : FrpConfig)
    (h : getConfig cs id = some c) : c.id = id := by
  unfold getConfig at h
  have := List.find?_some h
  simpa using this

/-- The per-element outcome of the auto-start loop: an eligible
configuration (auto-start set, not running) ends marked running when
its config-file write succeeds, and is left untouched when the write
fails; an ineligible configuration is skipped. -/
def autoStartOutcome (writeRes : String → Except String Unit)
    (c : FrpConfig) : FrpConfig :=
  if c.autoStart && !c.isRunning then
    match writeRes c.id with
    | .ok _ => { c with isRunning := true }
    | .error _ => c
  else c

lemma autoStartLoop_configs (writeRes : String → Except String Unit)
    (pending : List FrpConfig) : ∀ st : ManagerState,
    (autoStartLoop writeRes st pending).2.1 =
      pending.map (autoStartOutcome writeRes) := by
  induction pending with
  | nil => intro st; rfl
  | cons config rest ih =>
    intro st
    by_cases hc : (config.autoStart && !config.isRunning) = true
    · cases hw : writeRes config.id with
      | ok u => simp [autoStartLoop, hc, hw, startFrp, ih, autoStartOutcome]
      | error e => simp [autoStartLoop, hc, hw, ih, autoStartOutcome]
    · simp [autoStartLoop, hc, ih, autoStartOutcome]

lemma autoStartLoop_errors (writeRes : String → Except String Unit)
    (pending : List FrpConfig) : ∀ st : ManagerState, ∀ c ∈ pending,
    (c.autoStart && !c.isRunning) = true → ∀ e, writeRes c.id = .error e →
    FrpAction.errorEvent c.id ("自动启动失败: " ++ e) ∈
      (autoStartLoop writeRes st pending).2.2 := by
  induction pending with
  | nil => intro st c hc; simp at hc
  | cons config rest ih =>
    intro st c hmem helig e hw
    rcases List.mem_cons.mp hmem with rfl | hmem'
    · simp [autoStartLoop, helig, hw]
    · by_cases hc : (config.autoStart && !config.isRunning) = true
      · cases hwc : writeRes config.id with
        | ok u =>
          simp only [autoStartLoop, hc, if_true, hwc, List.mem_append]
          exact Or.inr (ih _ c hmem' helig e hw)
        | error e2 =>
          simp only [autoStartLoop, hc, if_true, hwc, List.mem_cons]
          exact Or.inr (ih _ c hmem' helig e hw)
      · simp only [autoStartLoop, hc, Bool.false_eq_true, if_false]
        exact ih _ c hmem' helig e hw

/-! ### Concrete instances used to instantiate the theorems -/

/-- A registry record that is currently running (its process is tracked
under handle 0 in `stRun`). -/
def cfgRun : FrpConfig :=
  { id := "a", name := "Tunnel A", config := "k = 1", isRunning := true,
    autoStart := false, parsedConfig := none }

/-- A stopped record with a valid body. -/
def cfgB : FrpConfig :=
  { id := "b", name := "Tunnel B", config := "k = 2", isRunning := false,
    autoStart := false, parsedConfig := none }

/-- A record whose body `demoParse` rejects. -/
def cfgBad : FrpConfig :=
  { id := "bad", name := "Bad", config := "", isRunning := false,
    autoStart := false, parsedConfig := none }

/-- A state in which `cfgRun` is registered and its process is live. -/
def stRun : ManagerState :=
  { processes := [("a", 0)], configs := [cfgRun], nextHandle := 1 }

/-- The empty manager state. -/
def stEmpty : ManagerState :=
  { processes := [], configs := [], nextHandle := 0 }

/-! ### C1 -/

/-- C1 counterexample: in `stRun` a process (handle 0) is already
tracked for id `"a"`, yet a second `startFrp` on the same id succeeds
(no `AlreadyRunning` failure), spawns a second process (handle 1) and
replaces the process-table entry for `"a"` with the new handle — the
claim is false on this input. -/
theorem C1_counterexample :
    mapGet stRun.processes cfgRun.id = some 0 ∧
    (startFrp (.ok ()) stRun cfgRun).1 = .ok () ∧
    mapGet (startFrp (.ok ()) stRun cfgRun).2.1.processes cfgRun.id = some 1 ∧
    (startFrp (.ok ()) stRun cfgRun).2.2.2 =
      [FrpAction.spawn 1, FrpAction.statusChanged { cfgRun with isRunning := true }] :=
  ⟨rfl, rfl, rfl, rfl⟩

/-- C1 amended: `startFrp` has no already-running guard.  A second
start on an id whose process is still tracked succeeds, spawns a fresh
process with a fresh handle and overwrites the process-table entry for
that id with the new handle (the previous process is no longer tracked
but is not killed). -/
theorem C1_second_start_replaces (st : ManagerState) (config : FrpConfig)
    (hproc : Nat) (htracked : mapGet st.processes config.id = some hproc) :
    (startFrp (.ok ()) st config).1 = .ok () ∧
    mapGet (startFrp (.ok ()) st config).2.1.processes config.id =
      some st.nextHandle ∧
    (startFrp (.ok ()) st config).2.2.2 =
      [FrpAction.spawn st.nextHandle,
       FrpAction.statusChanged { config with isRunning := true }] :=
  ⟨rfl, mapGet_mapSet_self st.processes config.id st.nextHandle, rfl⟩

/-- C1 witness: the amended statement evaluated on `stRun`. -/
theorem C1_second_start_replaces_witness :
    (startFrp (.ok ()) stRun cfgRun).1 = .ok () ∧
    mapGet (startFrp (.ok ()) stRun cfgRun).2.1.processes cfgRun.id =
      some stRun.nextHandle ∧
    (startFrp (.ok ()) stRun cfgRun).2.2.2 =
      [FrpAction.spawn stRun.nextHandle,
       FrpAction.statusChanged { cfgRun with isRunning := true }] :=
  C1_second_start_replaces stRun cfgRun 0 rfl

/-! ### C2 -/

/-- C2 counterexample: `saveConfig` writes `JSON.stringify(this.configs)`,
the full records.  Saving `cfgB` while `cfgRun` is running persists
`cfgRun` with `isRunning = true`, and `initConfigs` of that file
returns it still marked running — the persisted set does carry a
running mark and a cold load does not reconstruct `Stopped`. -/
theorem C2_counterexample :
    cfgRun.isRunning = true ∧
    (saveConfig demoParse (.ok ()) stRun [] cfgB).2.2 =
      [cfgRun, { cfgB with parsedConfig := some ⟨[("doc", "k = 2")]⟩ }] ∧
    initConfigs (some (saveConfig demoParse (.ok ()) stRun [] cfgB).2.2) =
      [cfgRun, { cfgB with parsedConfig := some ⟨[("doc", "k = 2")]⟩ }] ∧
    ((initConfigs (some (saveConfig demoParse (.ok ()) stRun [] cfgB).2.2)).all
      (fun c => !c.isRunning)) = false :=
  ⟨rfl, rfl, rfl, rfl⟩

/-- C2 amended: the persisted set is the full in-memory records —
`isRunning` and `parsedConfig` included — and `initConfigs` restores a
readable file verbatim (no reset of `isRunning` to `Stopped`); only a
missing or unreadable file yields the empty registry. -/
theorem C2_persists_full_records (parse : String → Except String TomlTable)
    (st : ManagerState) (persisted : List FrpConfig) (config : FrpConfig)
    (parsed : TomlTable) (h : parse config.config = .ok parsed) :
    (saveConfig parse (.ok ()) st persisted config).2.2 =
      (saveConfig parse (.ok ()) st persisted config).2.1.configs ∧
    (∀ cs : List FrpConfig, initConfigs (some cs) = cs) ∧
    initConfigs none = [] := by
  refine ⟨?_, fun cs => rfl, rfl⟩
  simp [saveConfig, h]

/-- C2 witness: the amended statement evaluated on `stRun` and `cfgB`. -/
theorem C2_persists_full_records_witness :
    (saveConfig demoParse (.ok ()) stRun [] cfgB).2.2 =
      (saveConfig demoParse (.ok ()) stRun [] cfgB).2.1.configs :=
  (C2_persists_full_records demoParse stRun [] cfgB ⟨[("doc", "k = 2")]⟩ rfl).1

/-! ### C3 -/

/-- C3: when the body fails to parse, `saveConfig` throws the
TOML-invalid error carrying the parse message and leaves the in-memory
registry, the whole manager state and the persisted file exactly as
they were. -/
theorem C3_invalid_save_unchanged (parse : String → Except String TomlTable)
    (writeRes : Except String Unit) (st : ManagerState)
    (persisted : List FrpConfig) (config : FrpConfig) (msg : String)
    (h : parse config.config = .error msg) :
    saveConfig parse writeRes st persisted config =
      (.error ("TOML 配置格式无效: " ++ msg), st, persisted) := by
  simp [saveConfig, h]

/-- C3 witness: `demoParse` rejects the empty body of `cfgBad`; the
rejected save on `stRun` returns the error and changes nothing. -/
theorem C3_invalid_save_unchanged_witness :
    demoParse cfgBad.config = .error "Empty document" ∧
    saveConfig demoParse (.ok ()) stRun [cfgRun] cfgBad =
      (.error ("TOML 配置格式无效: " ++ "Empty document"), stRun, [cfgRun]) :=
  ⟨rfl, C3_invalid_save_unchanged demoParse (.ok ()) stRun [cfgRun] cfgBad
    "Empty document" rfl⟩

/-! ### C4 -/

/-- C4 counterexample: when the persistence write fails, `saveConfig`
does surface an error, but the in-memory registry has already been
mutated (here: from `[]` to the upserted record) — it is not left
unchanged as the claim requires. -/
theorem C4_counterexample :
    (saveConfig demoParse (.error "EACCES: write failed") stEmpty [] cfgB).1 =
      .error ("TOML 配置格式无效: " ++ "EACCES: write failed") ∧
    (saveConfig demoParse (.error "EACCES: write failed") stEmpty [] cfgB).2.1.configs ≠
      stEmpty.configs :=
  ⟨rfl, by decide⟩

/-- C4 amended: a failed persistence write is surfaced to the caller
(for `saveConfig` wrapped in the TOML-invalid message, for
`deleteConfig` propagated raw) and the persisted file keeps its prior
content, but the in-memory registry retains the mutation performed
before the write — the upsert for save, the stop-and-remove for
delete — so memory diverges from disk. -/
theorem C4_write_failure_keeps_mutation :
    (∀ (parse : String → Except String TomlTable) (st : ManagerState)
        (persisted : List FrpConfig) (config : FrpConfig) (parsed : TomlTable)
        (e : String), parse config.config = .ok parsed →
      (saveConfig parse (.error e) st persisted config).1 =
          .error ("TOML 配置格式无效: " ++ e) ∧
      (saveConfig parse (.error e) st persisted config).2.2 = persisted ∧
      (saveConfig parse (.error e) st persisted config).2.1.configs =
        upsertById st.configs { config with parsedConfig := some parsed }) ∧
    (∀ (st : ManagerState) (persisted : List FrpConfig) (id : String)
        (config : FrpConfig) (e : String), getConfig st.configs id = some config →
      (deleteConfig (.error e) st persisted id).1 = .error e ∧
      (deleteConfig (.error e) st persisted id).2.2.1 = persisted ∧
      (deleteConfig (.error e) st persisted id).2.1.configs =
        (replaceFirstById st.configs (stopFrp st.processes config).2.1).filter
          (fun c => c.id != id)) := by
  constructor
  · intro parse st persisted config parsed e h
    refine ⟨?_, ?_, ?_⟩ <;> simp [saveConfig, h]
  · intro st persisted id config e h
    refine ⟨?_, ?_, ?_⟩ <;> simp [deleteConfig, h]

/-- C4 witness: the amended statement evaluated on a failing save from
the empty state and a failing delete of the running record. -/
theorem C4_write_failure_keeps_mutation_witness :
    ((saveConfig demoParse (.error "disk full") stEmpty [] cfgB).1 =
        .error ("TOML 配置格式无效: " ++ "disk full") ∧
      (saveConfig demoParse (.error "disk full") stEmpty [] cfgB).2.2 = [] ∧
      (saveConfig demoParse (.error "disk full") stEmpty [] cfgB).2.1.configs =
        upsertById stEmpty.configs
          { cfgB with parsedConfig := some ⟨[("doc", "k = 2")]⟩ }) ∧
    (deleteConfig (.error "disk full") stRun [cfgRun] "a").1 = .error "disk full" :=
  ⟨C4_write_failure_keeps_mutation.1 demoParse stEmpty [] cfgB
      ⟨[("doc", "k = 2")]⟩ "disk full" rfl,
   (C4_write_failure_keeps_mutation.2 stRun [cfgRun] "a" cfgRun "disk full" rfl).1⟩

/-! ### C5 -/

/-- A running record whose display name differs from its id. -/
def cfgC5 : FrpConfig :=
  { id := "cfg-1", name := "My FRP", config := "k = 1", isRunning := true,
    autoStart := false, parsedConfig := none }

/-- C5 (code bug): on a non-zero, non-null exit the close handler does
deregister the handle, clear `isRunning` and emit status-changed
strictly before the error event carrying the exit code — but the
source passes `name` (the local copy of `config.name`) where
`notifyError` expects the configuration id, so the error event is
tagged `"My FRP"`, not `"cfg-1"`.  A `null` exit code (explicit kill)
emits no error event. -/
theorem C5_close_tags_error_with_name :
    (closeHandler [("cfg-1", 0)] cfgC5 (some 1)).1 = [] ∧
    (closeHandler [("cfg-1", 0)] cfgC5 (some 1)).2.1 =
      { cfgC5 with isRunning := false } ∧
    (closeHandler [("cfg-1", 0)] cfgC5 (some 1)).2.2 =
      [FrpAction.statusChanged { cfgC5 with isRunning := false },
       FrpAction.errorEvent cfgC5.name ("进程退出，退出码: " ++ toString (1 : Int))] ∧
    cfgC5.name ≠ cfgC5.id ∧
    (closeHandler [("cfg-1", 0)] cfgC5 none).2.2 =
      [FrpAction.statusChanged { cfgC5 with isRunning := false }] :=
  ⟨rfl, rfl, rfl, by decide, rfl⟩

/-! ### C6 -/

/-- C6 counterexample: a spawn-level failure is delivered through the
asynchronous `error` callback, after `startFrp` has already resolved
successfully.  The handler deregisters the entry and surfaces the
error event for the configuration id, but the caller of `startFrp`
received `.ok` — no failed result. -/
theorem C6_counterexample :
    (startFrp (.ok ()) stEmpty cfgB).1 = .ok () ∧
    mapGet (startFrp (.ok ()) stEmpty cfgB).2.1.processes cfgB.id = some 0 ∧
    (errorHandler (startFrp (.ok ()) stEmpty cfgB).2.1.processes cfgB
        "spawn frpc ENOENT").1 = [] ∧
    (errorHandler (startFrp (.ok ()) stEmpty cfgB).2.1.processes cfgB
        "spawn frpc ENOENT").2.2 =
      [FrpAction.statusChanged { cfgB with isRunning := false },
       FrpAction.errorEvent cfgB.id "spawn frpc ENOENT"] :=
  ⟨rfl, rfl, rfl, rfl⟩

/-- C6 amended: on a spawn-level failure the `error` handler
deregisters the process entry and emits a status-changed event
followed by an error event tagged with the configuration id and
carrying the error message; `startFrp` itself has already returned
success, so the failure reaches the caller only through the error
event, not as a failed result. -/
theorem C6_spawn_failure_async (st : ManagerState) (config : FrpConfig)
    (msg : String) :
    (startFrp (.ok ()) st config).1 = .ok () ∧
    mapGet (errorHandler (startFrp (.ok ()) st config).2.1.processes config msg).1
      config.id = none ∧
    (errorHandler (startFrp (.ok ()) st config).2.1.processes config msg).2.2 =
      [FrpAction.statusChanged { config with isRunning := false },
       FrpAction.errorEvent config.id msg] :=
  ⟨rfl, mapGet_mapDelete_self _ _, rfl⟩

/-! ### C7 -/

/-- C7: a save with a parseable body succeeds; `getConfig` then
returns the saved record (its `config` body equal to the input), the
id maps to exactly one record, id-uniqueness is preserved, and a save
onto an existing id keeps the registry length (update, not
duplicate). -/
theorem C7_save_then_get (parse : String → Except String TomlTable)
    (st : ManagerState) (persisted : List FrpConfig) (config : FrpConfig)
    (parsed : TomlTable) (hparse : parse config.config = .ok parsed)
    (huniq : uniqueIds st.configs) :
    (saveConfig parse (.ok ()) st persisted config).1 = .ok () ∧
    getConfig (saveConfig parse (.ok ()) st persisted config).2.1.configs
      config.id = some { config with parsedConfig := some parsed } ∧
    (getConfig (saveConfig parse (.ok ()) st persisted config).2.1.configs
        config.id).map (fun c => c.config) = some config.config ∧
    countById (saveConfig parse (.ok ()) st persisted config).2.1.configs
      config.id = 1 ∧
    uniqueIds (saveConfig parse (.ok ()) st persisted config).2.1.configs ∧
    (st.configs.any (fun c => c.id == config.id) = true →
      (saveConfig parse (.ok ()) st persisted config).2.1.configs.length =
        st.configs.length) := by
  have hcfgs : (saveConfig parse (.ok ()) st persisted config).2.1.configs =
      upsertById st.configs { config with parsedConfig := some parsed } := by
    simp [saveConfig, hparse]
  refine ⟨by simp [saveConfig, hparse], ?_, ?_, ?_, ?_, ?_⟩
  · rw [hcfgs]
    exact getConfig_upsertById st.configs { config with parsedConfig := some parsed }
  · rw [hcfgs]
    rw [getConfig_upsertById st.configs { config with parsedConfig := some parsed }]
    rfl
  · rw [hcfgs]
    exact countById_upsertById st.configs _ huniq
  · rw [hcfgs]
    exact uniqueIds_upsertById st.configs _ huniq
  · intro hmem
    rw [hcfgs]
    exact length_upsertById_of_mem st.configs _ hmem

/-- C7 witness: saving `cfgB` into `stRun` and reading it back. -/
theorem C7_save_then_get_witness :
    (saveConfig demoParse (.ok ()) stRun [cfgRun] cfgB).1 = .ok () ∧
    getConfig (saveConfig demoParse (.ok ()) stRun [cfgRun] cfgB).2.1.configs
      cfgB.id = some { cfgB with parsedConfig := some ⟨[("doc", "k = 2")]⟩ } ∧
    countById (saveConfig demoParse (.ok ()) stRun [cfgRun] cfgB).2.1.configs
      cfgB.id = 1 :=
  ⟨(C7_save_then_get demoParse stRun [cfgRun] cfgB ⟨[("doc", "k = 2")]⟩ rfl
      (by decide)).1,
   (C7_save_then_get demoParse stRun [cfgRun] cfgB ⟨[("doc", "k = 2")]⟩ rfl
      (by decide)).2.1,
   (C7_save_then_get demoParse stRun [cfgRun] cfgB ⟨[("doc", "k = 2")]⟩ rfl
      (by decide)).2.2.2.1⟩

/-! ### C8 -/

/-- C8: deleting an id whose process is tracked first stops the
process — the kill and the status-changed event (with `isRunning`
cleared) happen while the record is still in the registry, as the
fourth conjunct shows on the registry value at that instant — and only
then is the record removed, so afterwards `getConfig` no longer finds
the id; deleting an absent id is a successful no-op that changes
nothing and emits nothing. -/
theorem C8_delete_stops_then_removes :
    (∀ (st : ManagerState) (persisted : List FrpConfig) (id : String)
        (config : FrpConfig) (hproc : Nat),
      getConfig st.configs id = some config →
      mapGet st.processes id = some hproc →
      (deleteConfig (.ok ()) st persisted id).1 = .ok () ∧
      (deleteConfig (.ok ()) st persisted id).2.2.2 =
        [FrpAction.kill hproc,
         FrpAction.statusChanged { config with isRunning := false }] ∧
      getConfig (deleteConfig (.ok ()) st persisted id).2.1.configs id = none ∧
      getConfig (replaceFirstById st.configs { config with isRunning := false })
        id = some { config with isRunning := false }) ∧
    (∀ (st : ManagerState) (persisted : List FrpConfig) (id : String),
      getConfig st.configs id = none →
      deleteConfig (.ok ()) st persisted id = (.ok (), st, persisted, [])) := by
  constructor
  · intro st persisted id config hproc hfound htracked
    have hid : config.id = id := getConfig_id_eq _ _ _ hfound
    have htr : mapGet st.processes config.id = some hproc := by
      rw [hid]; exact htracked
    have hstop : stopFrp st.processes config =
        (mapDelete st.processes config.id, { config with isRunning := false },
         [FrpAction.kill hproc,
          FrpAction.statusChanged { config with isRunning := false }]) := by
      simp [stopFrp, htr]
    refine ⟨by simp [deleteConfig, hfound], ?_, ?_, ?_⟩
    · simp [deleteConfig, hfound, hstop]
    · simp only [deleteConfig, hfound]
      exact getConfig_filter_ne _ _
    · have hsome : (getConfig st.configs
          ({ config with isRunning := false } : FrpConfig).id).isSome := by
        show (getConfig st.configs config.id).isSome
        rw [hid, hfound]; rfl
      have hrep := getConfig_replaceFirstById st.configs
        { config with isRunning := false } hsome
      rw [← hid]
      exact hrep
  · intro st persisted id h
    simp [deleteConfig, h]

/-- C8 witness: deleting the running record of `stRun`. -/
theorem C8_delete_stops_then_removes_witness :
    (deleteConfig (.ok ()) stRun [cfgRun] "a").1 = .ok () ∧
    (deleteConfig (.ok ()) stRun [cfgRun] "a").2.2.2 =
      [FrpAction.kill 0,
       FrpAction.statusChanged { cfgRun with isRunning := false }] ∧
    getConfig (deleteConfig (.ok ()) stRun [cfgRun] "a").2.1.configs "a" = none ∧
    getConfig (replaceFirstById stRun.configs { cfgRun with isRunning := false })
      "a" = some { cfgRun with isRunning := false } :=
  C8_delete_stops_then_removes.1 stRun [cfgRun] "a" cfgRun 0 rfl rfl

/-! ### C9 -/

/-- C9: after the auto-start pass, every registry record is mapped
through `autoStartOutcome`: a record with `autoStart` set and not
running ends marked running when its start succeeds and is left as-is
when its start fails, and every other record is untouched — so one
failure never prevents later records from being started — and every
failed eligible start surfaces an error event tagged with that
configuration id. -/
theorem C9_auto_start_all_attempted (writeRes : String → Except String Unit)
    (st : ManagerState) :
    (startAutoStartConfigs writeRes st).1.configs =
      st.configs.map (autoStartOutcome writeRes) ∧
    (∀ c ∈ st.configs, (c.autoStart && !c.isRunning) = true →
      ∀ e, writeRes c.id = .error e →
        FrpAction.errorEvent c.id ("自动启动失败: " ++ e) ∈
          (startAutoStartConfigs writeRes st).2) := by
  constructor
  · exact autoStartLoop_configs writeRes st.configs st
  · intro c hmem helig e hw
    exact autoStartLoop_errors writeRes st.configs st c hmem helig e hw

/-- A boot registry: `cfgF9` auto-starts but its start fails, `cfgA9`
auto-starts and succeeds, `cfgB9` does not auto-start. -/
def cfgA9 : FrpConfig :=
  { id := "a9", name := "Auto A", config := "k = 1", isRunning := false,
    autoStart := true, parsedConfig := none }

def cfgB9 : FrpConfig :=
  { id := "b9", name := "Manual B", config := "k = 2", isRunning := false,
    autoStart := false, parsedConfig := none }

def cfgF9 : FrpConfig :=
  { id := "f9", name := "Failing F", config := "k = 3", isRunning := false,
    autoStart := true, parsedConfig := none }

/-- Write outcomes at boot: the transient config file of `"f9"` cannot
be written, every other write succeeds. -/
def wMix (id : String) : Except String Unit :=
  if id == "f9" then .error "EACCES" else .ok ()

def stBoot : ManagerState :=
  { processes := [], configs := [cfgF9, cfgA9, cfgB9], nextHandle := 0 }

/-- C9 witness: on `stBoot`, the failing record stays stopped and its
failure is surfaced as an error event, the auto-start record after it
still ends running (the failure did not abort the pass), and the
non-auto-start record stays stopped. -/
theorem C9_auto_start_all_attempted_witness :
    (startAutoStartConfigs wMix stBoot).1.configs =
      [cfgF9, { cfgA9 with isRunning := true }, cfgB9] ∧
    FrpAction.errorEvent "f9" ("自动启动失败: " ++ "EACCES") ∈
      (startAutoStartConfigs wMix stBoot).2 := by
  refine ⟨?_, ?_⟩
  · rw [(C9_auto_start_all_attempted wMix stBoot).1]; rfl
  · exact (C9_auto_start_all_attempted wMix stBoot).2 cfgF9 (by simp [stBoot])
      rfl "EACCES" rfl

/-! ### C10 -/

/-- C10: `getArchitecture` is a pure query of the `architecture` value
computed by `detectArchitecture` at construction: the result is one of
exactly `"arm64"` and `"x64"`, it is `"arm64"` precisely when the host
architecture string is `"arm64"` (anything else, 32-bit x86 included,
yields `"x64"`), and the manager state is returned untouched. -/
theorem C10_architecture_pure (arch : String) (st : ManagerState) :
    ((getArchitecture st (detectArchitecture arch)).1 = "arm64" ∨
     (getArchitecture st (detectArchitecture arch)).1 = "x64") ∧
    ((getArchitecture st (detectArchitecture arch)).1 = "arm64" ↔ arch = "arm64") ∧
    (getArchitecture st (detectArchitecture arch)).2 = st := by
  by_cases h : arch = "arm64"
  · subst h
    exact ⟨Or.inl rfl, by simp [getArchitecture, detectArchitecture], rfl⟩
  · have hb : (arch == "arm64") = false := by simpa using h
    refine ⟨Or.inr (by simp [getArchitecture, detectArchitecture, hb]), ?_, rfl⟩
    simp only [getArchitecture, detectArchitecture, hb, Bool.false_eq_true, if_false]
    constructor
    · intro hcontra
      exact absurd hcontra (by decide)
    · intro hcontra
      exact absurd hcontra h
